import Mathlib

/-!
Verification development for the canvas-lms-downloader repository
(src/index.ts). We shallowly embed the core of the program:

* filename sanitization (santizeFilename) and destination-path resolution,
* the Freshness Gate (fIfNeeded) over an explicit filesystem state,
* the Files deduplication (sort descending by modified_at, then uniqBy),
* the per-category download loops and the per-course orchestrator (run),
* CLI option validation.

Machine integers do not occur; JavaScript timestamps
(Date.prototype.getTime) are modelled as Int milliseconds.
-/

namespace Canvas

/-! ## Filename sanitization (src/index.ts lines 38-40) -/

/-- Modelled from the spec: the external filenamify library (not part of this
repository) replaces disallowed filesystem characters — the reserved set
`<>:"/\|?*` and control characters — with a safe replacement character; the
spec's Path Resolver contract says "disallowed filesystem characters
stripped/escaped". We model the character-wise replacement. -/
def isDisallowedChar (c : Char) : Bool :=
  c = '<' || c = '>' || c = ':' || c = '"' || c = '/' || c = '\\' ||
  c = '|' || c = '?' || c = '*' || c.toNat < 32

/-- Whitespace in the sense of the JavaScript regular expression \s
(restricted to its ASCII members). -/
def isSpaceChar (c : Char) : Bool :=
  c = ' ' || c = '\t' || c = '\n' || c = '\r' || c.toNat = 11 || c.toNat = 12

def replaceDisallowed (c : Char) : Char :=
  if isDisallowedChar c then '!' else c

def replaceSpace (c : Char) : Char :=
  if isSpaceChar c then '_' else c

/-- Modelled from the spec: filenamify as a character-wise replacement of
disallowed filesystem characters. -/
def filenamify (s : String) : String :=
  ⟨s.data.map replaceDisallowed⟩

/-- santizeFilename from src/index.ts line 38-40:
filenamify(s).replace(/\s/g, '_'). -/
def santizeFilename (s : String) : String :=
  ⟨(filenamify s).data.map replaceSpace⟩

/-- One character after full sanitization. -/
def sanitizeChar (c : Char) : Char :=
  replaceSpace (replaceDisallowed c)

/-- JavaScript String.prototype.split with a one-character separator, on
the character list of the string: splitting the empty string yields one
empty segment, and consecutive separators yield empty segments. -/
def splitOnChar (sep : Char) : List Char → List (List Char)
  | [] => [[]]
  | c :: rest =>
    match splitOnChar sep rest with
    | [] => if c = sep then [[], []] else [[c]]
    | seg :: segs =>
      if c = sep then [] :: seg :: segs else (c :: seg) :: segs

def splitSegments (s : String) (sep : Char) : List String :=
  (splitOnChar sep s.data).map (fun cs => ⟨cs⟩)

/-- Destination path resolution for one file record (src/index.ts lines
141-145), represented as the resolved path's list of segments: the course
directory, then the folder's full_name split on '/' with each folder
segment passed through santizeFilename, then file.filename — which
path.resolve(folder, file.filename) appends without sanitization. -/
def resolveDestPath (courseDir : List String) (canvasFoldername : String)
    (filename : String) : List String :=
  courseDir ++ (splitSegments canvasFoldername '/').map santizeFilename
    ++ [filename]

/-- The property claim C4 asserts of a resolved path: no segment contains
a disallowed filesystem character or any whitespace. -/
def pathFullySanitized (segs : List String) : Prop :=
  ∀ seg ∈ segs, ∀ c ∈ seg.data,
    isDisallowedChar c = false ∧ isSpaceChar c = false

/-! ## Filesystem state and the Freshness Gate (src/index.ts lines 100-111)

The gate fIfNeeded(f, destPath, mtime) checks whether a file already exists
at destPath with stored modification time equal to mtime; if so it returns
at once (skip), otherwise it awaits the produce action f and then stamps
fs.utimes(destPath, new Date(), mtime). A rejection of f propagates out of
the gate before the stamping line runs.

The filesystem is an association list from paths to timestamp metadata; the
byte contents are irrelevant to every claim and are not modelled. -/

structure FileMeta where
  mtime : Int
  atime : Int
  deriving Repr, DecidableEq

/-- A filesystem: paths that exist, with their timestamp metadata. -/
abbrev FS := List (String × FileMeta)

def FS.lookup : FS → String → Option FileMeta
  | [], _ => none
  | (p, m) :: rest, q => if p = q then some m else FS.lookup rest q

/-- fs.utimes(path, atime, mtime): sets both timestamps of an existing file;
errors (none) when the path does not exist. -/
def FS.utimes : FS → String → Int → Int → Option FS
  | [], _, _, _ => none
  | (p, m) :: rest, q, a, t =>
    if p = q then some ((p, ⟨t, a⟩) :: rest)
    else (FS.utimes rest q a t).map (fun r => (p, m) :: r)

/-- Outcome of the produce action (the zero-argument async function passed to
the gate): it may mutate the filesystem and perform disk writes, and either
fulfills or rejects. On rejection the filesystem it leaves behind is still
recorded (a partially written file may exist). -/
inductive ProduceOutcome where
  | success (fs : FS) (writes : Nat)
  | failure (fs : FS) (writes : Nat)
  deriving Repr

/-- Result of one gate invocation: the filesystem afterwards, how many times
produce was invoked, how many disk writes happened (produce's writes plus
the utimes stamp), and whether the invocation fulfilled (ok = false means
the returned promise rejected and the error propagates to the caller). -/
structure GateResult where
  fs : FS
  produceCalls : Nat
  writes : Nat
  ok : Bool
  deriving Repr

/-- The fetch branch of the gate: await f(), then
fs.utimes(destPath, new Date(), mtime). A rejection of f propagates before
utimes runs; utimes on a missing path rejects as well. -/
def fetchAndStamp (produce : FS → ProduceOutcome) (destPath : String)
    (mtime now : Int) (fs : FS) : GateResult :=
  match produce fs with
  | .failure fs₂ w => { fs := fs₂, produceCalls := 1, writes := w, ok := false }
  | .success fs₂ w =>
    match FS.utimes fs₂ destPath now mtime with
    | some fs₃ => { fs := fs₃, produceCalls := 1, writes := w + 1, ok := true }
    | none => { fs := fs₂, produceCalls := 1, writes := w, ok := false }

/-- fIfNeeded from src/index.ts lines 100-111. now is the value of
new Date() at stamping time. -/
def fIfNeeded (produce : FS → ProduceOutcome) (destPath : String)
    (mtime now : Int) (fs : FS) : GateResult :=
  match FS.lookup fs destPath with
  | some meta =>
    if meta.mtime = mtime then
      { fs := fs, produceCalls := 0, writes := 0, ok := true }
    else
      fetchAndStamp produce destPath mtime now fs
  | none => fetchAndStamp produce destPath mtime now fs

/-- The negation of the skip condition of line 104: the gate decides to
fetch exactly when the destination is absent or its stored modification
time differs from the desired one. -/
def gateFetches (fs : FS) (destPath : String) (mtime : Int) : Bool :=
  match FS.lookup fs destPath with
  | some meta => !(meta.mtime == mtime)
  | none => true

/-! ## Files deduplication (src/index.ts lines 126-138)

downloadFiles sorts the flat file listing descending by modified_at
(comparator (a, b) => new Date(b.modified_at).getTime() -
new Date(a.modified_at).getTime()) and removes duplicates with
lodash.uniqBy keyed by the template string folder_id ++ " " ++ filename,
keeping the first record per key in sort order. -/

structure File where
  folder_id : Int
  filename : String
  url : String
  modified_at : Int
  deriving Repr, DecidableEq

/-- The lodash uniqBy key from line 138: the template string
interpolating folder_id and filename separated by a space. -/
def fileKey (f : File) : String :=
  toString f.folder_id ++ " " ++ f.filename

/-- The sort comparator from line 136: descending by modified_at; record a
comes before record b when b's timestamp is at most a's. -/
def fileDesc : File → File → Prop := fun a b => b.modified_at ≤ a.modified_at

instance : DecidableRel fileDesc := fun a b =>
  inferInstanceAs (Decidable (b.modified_at ≤ a.modified_at))

instance : IsTotal File fileDesc :=
  ⟨fun a b => le_total b.modified_at a.modified_at⟩

instance : IsTrans File fileDesc :=
  ⟨fun _ _ _ hab hbc => le_trans hbc hab⟩

/-- The sortedFiles value of line 136. -/
def sortedFiles (files : List File) : List File :=
  List.insertionSort fileDesc files

/-- lodash.uniqBy: keep, for each key, only the first element carrying that
key; later elements with an already-seen key are dropped. -/
def uniqBy {α κ : Type} [DecidableEq κ] (key : α → κ) : List α → List α
  | [] => []
  | x :: xs => x :: uniqBy key (xs.filter (fun y => key y ≠ key x))
  termination_by l => l.length
  decreasing_by
    simp only [List.length_cons]
    exact Nat.lt_succ_of_le (List.length_filter_le _ _)

/-- The uniqueFiles value of line 138. -/
def uniqueFiles (files : List File) : List File :=
  uniqBy fileKey (sortedFiles files)

/-! ## Announcements (src/index.ts lines 256-266) -/

structure Announcement where
  id : String
  title : String
  created_at : Int
  message : String
  deriving Repr, DecidableEq

/-- Destination filename of one announcement (line 263):
santizeFilename(a.title + '_' + a.id) + '.html'. -/
def announcementDestName (a : Announcement) : String :=
  santizeFilename (a.title ++ "_" ++ a.id) ++ ".html"

/-! ## The Files item loop (src/index.ts lines 140-159)

Each deduplicated record is resolved to a destination path and driven
through the gate. There is no try/catch inside the loop: a rejected gate
promise rejects downloadFiles itself, so the remaining items of the
category are never reached. The rejection is caught only at the per-course
call site (line 296, .catch(console.error)). -/

/-- A file record after path resolution: its destination path and desired
modification time. -/
structure PlannedFile where
  destPath : String
  mtime : Int
  deriving Repr, DecidableEq

structure LoopResult where
  fs : FS
  attempted : List String
  ok : Bool
  deriving Repr, DecidableEq

/-- The body of the for-loop over uniqueFiles: attempted records the
destination paths for which the gate was invoked, in order; ok = false
means the category function rejected. -/
def downloadFilesLoop (produce : String → FS → ProduceOutcome) (now : Int) :
    List PlannedFile → FS → LoopResult
  | [], fs => ⟨fs, [], true⟩
  | item :: rest, fs =>
    let r := fIfNeeded (produce item.destPath) item.destPath item.mtime now fs
    if r.ok then
      let rr := downloadFilesLoop produce now rest r.fs
      ⟨rr.fs, item.destPath :: rr.attempted, rr.ok⟩
    else
      ⟨r.fs, [item.destPath], false⟩

/-! ## The orchestrator run() (src/index.ts lines 268-301) -/

structure Course where
  id : Int
  name : String
  course_code : String
  deriving Repr, DecidableEq

inductive Category where
  | assignments
  | files
  | pages
  | announcements
  | modules
  deriving Repr, DecidableEq

/-- The order in which run() awaits the five category downloaders
(lines 295-299). -/
def categoryOrder : List Category :=
  [.assignments, .files, .pages, .announcements, .modules]

/-- Course selection (line 275): with --course, keep exactly the courses
whose name or course_code strictly equals the selector; with --all keep
every course. -/
def coursesToProcess (sel : Option String) (cs : List Course) : List Course :=
  match sel with
  | some s => cs.filter (fun c => c.name = s ∨ c.course_code = s)
  | none => cs

structure Event where
  courseId : Int
  category : Category
  succeeded : Bool
  deriving Repr, DecidableEq

def eventKey (e : Event) : Int × Category :=
  (e.courseId, e.category)

/-- One iteration of run()'s course loop (lines 283-300): a course with a
falsy name is skipped entirely; otherwise the five category downloaders
are awaited in order, each wrapped in .catch(console.error), so a category
rejection is swallowed and the next downloader still runs. outcome says
whether a given category downloader invocation fulfills (true) or rejects
(false); either way the invocation happened and returned. -/
def processCourse (outcome : Int → Category → Bool) (c : Course) : List Event :=
  if c.name = "" then []
  else categoryOrder.map (fun cat => ⟨c.id, cat, outcome c.id cat⟩)

def runCoursesAux (outcome : Int → Category → Bool) : List Course → List Event
  | [] => []
  | c :: rest => processCourse outcome c ++ runCoursesAux outcome rest

/-- The orchestration performed by run(): the sequence of
category-downloader invocations over the selected courses. -/
def runCourses (outcome : Int → Category → Bool) (sel : Option String)
    (cs : List Course) : List Event :=
  runCoursesAux outcome (coursesToProcess sel cs)

/-- Courses that reach the download stage: selected by line 275 and not
skipped by the falsy-name check of line 285. -/
def processedCourses (sel : Option String) (cs : List Course) : List Course :=
  (coursesToProcess sel cs).filter (fun c => ¬c.name = "")

/-! ## CLI option validation (src/index.ts lines 11-36) -/

structure CLIOptions where
  course : Option String
  all : Bool
  dir : Option String
  url : Option String
  token : Option String
  deriving Repr, DecidableEq

/-- JavaScript truthiness of an optional string option: present and
non-empty. -/
def truthy : Option String → Bool
  | none => false
  | some s => !(s == "")

/-- The validation chain of lines 26-36, in source order: the message
handed to commanderFail, or none when the options are accepted. -/
def validateOptions (o : CLIOptions) : Option String :=
  if truthy o.course && o.all then
    some "Specify either --course or --all, not both"
  else if !truthy o.course && !o.all then
    some "Must specify either --course or --all"
  else if !truthy o.dir then
    some "Must specify dir"
  else if !truthy o.url then
    some "Must specify url"
  else if !truthy o.token then
    some "Must specify token"
  else
    none

structure ProgramTrace where
  printedUsage : Bool
  exitCode : Option Nat
  networkCalls : Nat
  deriving Repr, DecidableEq

/-- Modelled from the spec: commanderFail (lines 19-22) prints the message
and calls commander's program.help(); commander is not part of this
repository, and per the spec the call prints usage and terminates the
process with a non-zero exit code. Validation (lines 26-36) runs at module
load, before run() (line 303) performs any request; networkRunCalls stands
for however many network requests run() would perform. -/
def mainModel (o : CLIOptions) (networkRunCalls : Nat) : ProgramTrace :=
  match validateOptions o with
  | some _ =>
    { printedUsage := true, exitCode := some 1, networkCalls := 0 }
  | none =>
    { printedUsage := false, exitCode := none, networkCalls := networkRunCalls }

/-! ## Helper lemmas -/

theorem santizeFilename_data (s : String) :
    (santizeFilename s).data = s.data.map sanitizeChar := by
  simp [santizeFilename, filenamify, sanitizeChar, List.map_map]

theorem sanitizeChar_safe (c : Char) :
    isDisallowedChar (sanitizeChar c) = false ∧
    isSpaceChar (sanitizeChar c) = false := by
  unfold sanitizeChar replaceSpace replaceDisallowed
  by_cases hd : isDisallowedChar c
  · rw [if_pos hd]
    decide
  · rw [if_neg hd]
    by_cases hs : isSpaceChar c
    · rw [if_pos hs]
      decide
    · rw [if_neg hs]
      exact ⟨Bool.not_eq_true _ ▸ hd, Bool.not_eq_true _ ▸ hs⟩

theorem FS.lookup_utimes (fs : FS) (q : String) (a t : Int) (fs₂ : FS)
    (h : FS.utimes fs q a t = some fs₂) :
    FS.lookup fs₂ q = some ⟨t, a⟩ := by
  induction fs generalizing fs₂ with
  | nil => simp [FS.utimes] at h
  | cons hd rest ih =>
    obtain ⟨p, m⟩ := hd
    by_cases hpq : p = q
    · simp [FS.utimes, hpq] at h
      subst h
      simp [FS.lookup]
    · simp [FS.utimes, hpq] at h
      obtain ⟨r, hr, rfl⟩ := h
      simp [FS.lookup, hpq]
      exact ih r hr

theorem mem_of_mem_uniqBy {α κ : Type} [DecidableEq κ] (key : α → κ) :
    ∀ (l : List α) (x : α), x ∈ uniqBy key l → x ∈ l
  | [], x, h => by simp [uniqBy] at h
  | a :: as, x, h => by
    rw [uniqBy] at h
    rcases List.mem_cons.mp h with h1 | h2
    · exact h1 ▸ List.mem_cons_self a as
    · have hm := mem_of_mem_uniqBy key (as.filter (fun y => key y ≠ key a)) x h2
      exact List.mem_cons_of_mem a (List.mem_of_mem_filter hm)
  termination_by l => l.length
  decreasing_by
    simp only [List.length_cons]
    exact Nat.lt_succ_of_le (List.length_filter_le _ _)

theorem uniqBy_filter_key {α κ : Type} [DecidableEq κ] (key : α → κ) (k : κ) :
    ∀ l : List α, (uniqBy key l).filter (fun y => key y = k) =
      (l.filter (fun y => key y = k)).take 1
  | [] => by simp [uniqBy]
  | a :: as => by
    rw [uniqBy]
    by_cases hk : key a = k
    · rw [List.filter_cons_of_pos (by simpa using hk),
        List.filter_cons_of_pos (by simpa using hk)]
      have hnil : (uniqBy key (as.filter (fun y => key y ≠ key a))).filter
          (fun y => decide (key y = k)) = [] := by
        rw [List.filter_eq_nil_iff]
        intro y hy
        have hy2 := mem_of_mem_uniqBy key _ y hy
        have := List.of_mem_filter hy2
        simp only [decide_not, Bool.not_eq_true', decide_eq_false_iff_not] at this
        simpa using hk ▸ this
      rw [hnil]
      simp
    · rw [List.filter_cons_of_neg (by simpa using hk),
        List.filter_cons_of_neg (by simpa using hk)]
      rw [uniqBy_filter_key key k (as.filter (fun y => key y ≠ key a))]
      congr 1
      rw [List.filter_filter]
      apply List.filter_congr
      intro y _
      by_cases hyk : key y = k
      · have h1 : key y ≠ key a := fun hcon => hk (hcon ▸ hyk)
        have h2 : ¬k = key a := fun hcon => hk hcon.symm
        simp [hyk, h1, h2]
      · simp [hyk]
  termination_by l => l.length
  decreasing_by
    simp only [List.length_cons]
    exact Nat.lt_succ_of_le (List.length_filter_le _ _)

theorem sortedFiles_perm (files : List File) :
    List.Perm (sortedFiles files) files :=
  List.perm_insertionSort fileDesc files

theorem sortedFiles_pairwise (files : List File) :
    (sortedFiles files).Pairwise fileDesc :=
  List.sorted_insertionSort fileDesc files

theorem FS.utimes_exists (fs : FS) (q : String) (a t : Int) (m : FileMeta)
    (h : FS.lookup fs q = some m) :
    ∃ fs₂, FS.utimes fs q a t = some fs₂ := by
  induction fs with
  | nil => simp [FS.lookup] at h
  | cons hd rest ih =>
    obtain ⟨p, mm⟩ := hd
    by_cases hpq : p = q
    · exact ⟨(p, ⟨t, a⟩) :: rest, by simp [FS.utimes, hpq]⟩
    · simp only [FS.lookup, if_neg hpq] at h
      obtain ⟨fs₂, hfs₂⟩ := ih h
      exact ⟨(p, mm) :: fs₂, by simp [FS.utimes, hpq, hfs₂]⟩

theorem fetchAndStamp_produceCalls (produce : FS → ProduceOutcome)
    (destPath : String) (mtime now : Int) (fs : FS) :
    (fetchAndStamp produce destPath mtime now fs).produceCalls = 1 := by
  unfold fetchAndStamp
  split
  · rfl
  · split <;> rfl

theorem fIfNeeded_of_fetches (produce : FS → ProduceOutcome)
    (destPath : String) (mtime now : Int) (fs : FS)
    (h : gateFetches fs destPath mtime = true) :
    fIfNeeded produce destPath mtime now fs =
      fetchAndStamp produce destPath mtime now fs := by
  unfold fIfNeeded
  cases hm : FS.lookup fs destPath with
  | none => rfl
  | some meta =>
    unfold gateFetches at h
    rw [hm] at h
    simp only at h
    have hne : meta.mtime ≠ mtime := by
      intro hcon
      rw [hcon] at h
      simp at h
    simp [hne]

theorem fIfNeeded_skip (produce : FS → ProduceOutcome) (destPath : String)
    (mtime now : Int) (fs : FS) (m : FileMeta)
    (hm : FS.lookup fs destPath = some m) (ht : m.mtime = mtime) :
    fIfNeeded produce destPath mtime now fs =
      { fs := fs, produceCalls := 0, writes := 0, ok := true } := by
  unfold fIfNeeded
  rw [hm]
  simp [ht]

theorem gateFetches_false (fs : FS) (destPath : String) (mtime : Int)
    (h : gateFetches fs destPath mtime = false) :
    ∃ m, FS.lookup fs destPath = some m ∧ m.mtime = mtime := by
  unfold gateFetches at h
  cases hm : FS.lookup fs destPath with
  | none =>
    rw [hm] at h
    simp at h
  | some meta =>
    rw [hm] at h
    simp only at h
    refine ⟨meta, rfl, ?_⟩
    simpa using h

theorem fetchAndStamp_failure_eq (produce : FS → ProduceOutcome)
    (destPath : String) (mtime now : Int) (fs fs₂ : FS) (w : Nat)
    (hprod : produce fs = ProduceOutcome.failure fs₂ w) :
    fetchAndStamp produce destPath mtime now fs =
      { fs := fs₂, produceCalls := 1, writes := w, ok := false } := by
  unfold fetchAndStamp
  simp only [hprod]

theorem fetchAndStamp_success_eq (produce : FS → ProduceOutcome)
    (destPath : String) (mtime now : Int) (fs fs₂ fs₃ : FS) (w : Nat)
    (hprod : produce fs = ProduceOutcome.success fs₂ w)
    (hu : FS.utimes fs₂ destPath now mtime = some fs₃) :
    fetchAndStamp produce destPath mtime now fs =
      { fs := fs₃, produceCalls := 1, writes := w + 1, ok := true } := by
  unfold fetchAndStamp
  simp only [hprod, hu]

theorem fetchAndStamp_success_none_eq (produce : FS → ProduceOutcome)
    (destPath : String) (mtime now : Int) (fs fs₂ : FS) (w : Nat)
    (hprod : produce fs = ProduceOutcome.success fs₂ w)
    (hu : FS.utimes fs₂ destPath now mtime = none) :
    fetchAndStamp produce destPath mtime now fs =
      { fs := fs₂, produceCalls := 1, writes := w, ok := false } := by
  unfold fetchAndStamp
  simp only [hprod, hu]

theorem fetchAndStamp_ok_lookup (produce : FS → ProduceOutcome)
    (destPath : String) (mtime now : Int) (fs : FS)
    (h : (fetchAndStamp produce destPath mtime now fs).ok = true) :
    FS.lookup (fetchAndStamp produce destPath mtime now fs).fs destPath =
      some { mtime := mtime, atime := now } := by
  cases hp : produce fs with
  | failure fs₂ w =>
    rw [fetchAndStamp_failure_eq produce destPath mtime now fs fs₂ w hp] at h
    simp at h
  | success fs₂ w =>
    cases hu : FS.utimes fs₂ destPath now mtime with
    | none =>
      rw [fetchAndStamp_success_none_eq produce destPath mtime now fs fs₂ w
        hp hu] at h
      simp at h
    | some fs₃ =>
      rw [fetchAndStamp_success_eq produce destPath mtime now fs fs₂ fs₃ w
        hp hu]
      simpa using FS.lookup_utimes fs₂ destPath now mtime fs₃ hu

theorem fIfNeeded_ok_fresh (produce : FS → ProduceOutcome) (destPath : String)
    (mtime now : Int) (fs : FS)
    (h : (fIfNeeded produce destPath mtime now fs).ok = true) :
    ∃ m, FS.lookup (fIfNeeded produce destPath mtime now fs).fs destPath =
      some m ∧ m.mtime = mtime := by
  by_cases hf : gateFetches fs destPath mtime = true
  · rw [fIfNeeded_of_fetches produce destPath mtime now fs hf] at h ⊢
    exact ⟨{ mtime := mtime, atime := now },
      fetchAndStamp_ok_lookup produce destPath mtime now fs h, rfl⟩
  · obtain ⟨m, hm, ht⟩ :=
      gateFetches_false fs destPath mtime (Bool.not_eq_true _ ▸ hf)
    rw [fIfNeeded_skip produce destPath mtime now fs m hm ht]
    exact ⟨m, hm, ht⟩

theorem fIfNeeded_produceCalls_le_one (produce : FS → ProduceOutcome)
    (destPath : String) (mtime now : Int) (fs : FS) :
    (fIfNeeded produce destPath mtime now fs).produceCalls ≤ 1 := by
  by_cases hf : gateFetches fs destPath mtime = true
  · rw [fIfNeeded_of_fetches produce destPath mtime now fs hf,
      fetchAndStamp_produceCalls]
  · obtain ⟨m, hm, ht⟩ :=
      gateFetches_false fs destPath mtime (Bool.not_eq_true _ ▸ hf)
    rw [fIfNeeded_skip produce destPath mtime now fs m hm ht]
    exact Nat.zero_le 1

theorem santizeFilename_append (s t : String) :
    santizeFilename (s ++ t) = santizeFilename s ++ santizeFilename t := by
  apply String.ext
  rw [String.data_append, santizeFilename_data, santizeFilename_data,
    santizeFilename_data, String.data_append, List.map_append]

/-! ## Claim theorems -/

/-- Claim C1: if the destination exists with stored modification time
exactly equal to the desired one, the Freshness Gate performs no call to
produce and no disk writes and leaves the filesystem unchanged; and
whenever a gate invocation fulfills, a second invocation with the same
destination path and the same desired modification time performs zero
produce calls and zero writes, so produce is invoked at most once across
the two calls. -/
theorem freshness_gate_idempotent (produce : FS → ProduceOutcome)
    (destPath : String) (mtime now₁ now₂ : Int) (fs : FS) :
    (∀ m, FS.lookup fs destPath = some m → m.mtime = mtime →
      fIfNeeded produce destPath mtime now₁ fs =
        { fs := fs, produceCalls := 0, writes := 0, ok := true }) ∧
    ((fIfNeeded produce destPath mtime now₁ fs).ok = true →
      (fIfNeeded produce destPath mtime now₂
          (fIfNeeded produce destPath mtime now₁ fs).fs).produceCalls = 0 ∧
      (fIfNeeded produce destPath mtime now₂
          (fIfNeeded produce destPath mtime now₁ fs).fs).writes = 0 ∧
      (fIfNeeded produce destPath mtime now₁ fs).produceCalls +
        (fIfNeeded produce destPath mtime now₂
            (fIfNeeded produce destPath mtime now₁ fs).fs).produceCalls ≤ 1) := by
  constructor
  · intro m hm ht
    exact fIfNeeded_skip produce destPath mtime now₁ fs m hm ht
  · intro hok
    obtain ⟨m, hm, ht⟩ := fIfNeeded_ok_fresh produce destPath mtime now₁ fs hok
    rw [fIfNeeded_skip produce destPath mtime now₂ _ m hm ht]
    refine ⟨rfl, rfl, ?_⟩
    simpa using fIfNeeded_produceCalls_le_one produce destPath mtime now₁ fs

/-- Witness for C1: a destination that already has the desired modification
time is skipped, and the invocation right after performs no produce call. -/
theorem freshness_gate_idempotent_witness :
    fIfNeeded (fun s => ProduceOutcome.success s 1) "p" 5 100 [("p", ⟨5, 0⟩)] =
      { fs := [("p", ⟨5, 0⟩)], produceCalls := 0, writes := 0, ok := true } ∧
    (fIfNeeded (fun s => ProduceOutcome.success s 1) "p" 5 200
        (fIfNeeded (fun s => ProduceOutcome.success s 1) "p" 5 100
          [("p", ⟨5, 0⟩)]).fs).produceCalls = 0 := by
  have h := freshness_gate_idempotent (fun s => ProduceOutcome.success s 1)
    "p" 5 100 200 [("p", ⟨5, 0⟩)]
  exact ⟨h.1 ⟨5, 0⟩ (by decide) rfl, (h.2 (by decide)).1⟩

/-- Claim C2: whenever the Freshness Gate decides to fetch and produce
succeeds (leaving a file at the destination), the gate stamps the
artifact's modification time to exactly the desired modification time and
its access time to the current time; the desired time ranges over all Int
values, including epoch and far-future timestamps. -/
theorem timestamp_fidelity (produce : FS → ProduceOutcome) (destPath : String)
    (mtime now : Int) (fs fs₂ : FS) (w : Nat) (m : FileMeta)
    (hfetch : gateFetches fs destPath mtime = true)
    (hprod : produce fs = ProduceOutcome.success fs₂ w)
    (hcreated : FS.lookup fs₂ destPath = some m) :
    FS.lookup (fIfNeeded produce destPath mtime now fs).fs destPath =
      some { mtime := mtime, atime := now } ∧
    (fIfNeeded produce destPath mtime now fs).ok = true := by
  rw [fIfNeeded_of_fetches produce destPath mtime now fs hfetch]
  obtain ⟨fs₃, hu⟩ := FS.utimes_exists fs₂ destPath now mtime m hcreated
  rw [fetchAndStamp_success_eq produce destPath mtime now fs fs₂ fs₃ w
    hprod hu]
  exact ⟨FS.lookup_utimes fs₂ destPath now mtime fs₃ hu, rfl⟩

/-- Witness for C2 at the epoch timestamp 0 and at a far-future timestamp. -/
theorem timestamp_fidelity_witness :
    FS.lookup (fIfNeeded (fun _ => ProduceOutcome.success [("p", ⟨9, 9⟩)] 1)
        "p" 0 100 []).fs "p" = some { mtime := 0, atime := 100 } ∧
    FS.lookup (fIfNeeded (fun _ => ProduceOutcome.success [("p", ⟨9, 9⟩)] 1)
        "p" 32503680000000 100 []).fs "p" =
      some { mtime := 32503680000000, atime := 100 } := by
  constructor
  · exact (timestamp_fidelity _ "p" 0 100 [] [("p", ⟨9, 9⟩)] 1 ⟨9, 9⟩
      (by decide) rfl (by decide)).1
  · exact (timestamp_fidelity _ "p" 32503680000000 100 [] [("p", ⟨9, 9⟩)] 1
      ⟨9, 9⟩ (by decide) rfl (by decide)).1

/-- Claim C9: when the Freshness Gate decides to fetch and produce fails,
the gate propagates the failure and performs no timestamp stamping: the
filesystem afterwards is exactly what the failed produce left behind.
Consequently, when that state is still not fresh for the desired time, a
subsequent invocation with the same arguments invokes produce again
instead of skipping. -/
theorem no_false_skip_after_failed_transfer (produce : FS → ProduceOutcome)
    (destPath : String) (mtime now₁ now₂ : Int) (fs fs₂ : FS) (w : Nat)
    (hfetch : gateFetches fs destPath mtime = true)
    (hprod : produce fs = ProduceOutcome.failure fs₂ w) :
    fIfNeeded produce destPath mtime now₁ fs =
      { fs := fs₂, produceCalls := 1, writes := w, ok := false } ∧
    (gateFetches fs₂ destPath mtime = true →
      (fIfNeeded produce destPath mtime now₂ fs₂).produceCalls = 1) := by
  constructor
  · rw [fIfNeeded_of_fetches produce destPath mtime now₁ fs hfetch]
    exact fetchAndStamp_failure_eq produce destPath mtime now₁ fs fs₂ w hprod
  · intro h2
    rw [fIfNeeded_of_fetches produce destPath mtime now₂ fs₂ h2,
      fetchAndStamp_produceCalls]

/-- Witness for C9: a failed transfer leaves a partially written file with
a stale timestamp, and the next invocation calls produce again. -/
theorem no_false_skip_after_failed_transfer_witness :
    fIfNeeded (fun _ => ProduceOutcome.failure [("p", ⟨50, 50⟩)] 1)
        "p" 5 100 [] =
      { fs := [("p", ⟨50, 50⟩)], produceCalls := 1, writes := 1, ok := false } ∧
    (fIfNeeded (fun _ => ProduceOutcome.failure [("p", ⟨50, 50⟩)] 1)
        "p" 5 200 [("p", ⟨50, 50⟩)]).produceCalls = 1 := by
  have h := no_false_skip_after_failed_transfer
    (fun _ => ProduceOutcome.failure [("p", ⟨50, 50⟩)] 1) "p" 5 100 200 []
    [("p", ⟨50, 50⟩)] 1 (by decide) rfl
  exact ⟨h.1, h.2 (by decide)⟩

/-- Claim C3: for every file list and every destination key shared by a
nonempty set of records with pairwise-distinct modification timestamps,
the deduplicated output (sort descending by modified_at, then uniqBy on
the key) contains exactly one record with that key, and its modified_at
equals the maximum among the records carrying the key. -/
theorem deduplication_correct (files : List File) (k : String)
    (hne : files.filter (fun f => fileKey f = k) ≠ [])
    (_hdist : (files.filter (fun f => fileKey f = k)).Pairwise
      (fun a b => a.modified_at ≠ b.modified_at)) :
    ∃ f, (uniqueFiles files).filter (fun g => fileKey g = k) = [f] ∧
      ((files.filter (fun g => fileKey g = k)).map File.modified_at).maximum =
        (f.modified_at : WithBot Int) := by
  have hperm : List.Perm
      ((sortedFiles files).filter (fun g => fileKey g = k))
      (files.filter (fun g => fileKey g = k)) :=
    List.Perm.filter _ (sortedFiles_perm files)
  have hsne : (sortedFiles files).filter (fun g => fileKey g = k) ≠ [] := by
    intro hnil
    rw [hnil] at hperm
    exact hne hperm.symm.eq_nil
  cases hg : (sortedFiles files).filter (fun g => fileKey g = k) with
  | nil => exact absurd hg hsne
  | cons a rest =>
    refine ⟨a, ?_, ?_⟩
    · unfold uniqueFiles
      rw [uniqBy_filter_key fileKey k (sortedFiles files), hg]
      rfl
    · have hpair : ((sortedFiles files).filter
          (fun g => fileKey g = k)).Pairwise fileDesc :=
        List.Pairwise.filter _ (sortedFiles_pairwise files)
      rw [hg] at hpair
      have hle : ∀ b ∈ rest, b.modified_at ≤ a.modified_at := by
        intro b hb
        exact (List.pairwise_cons.mp hpair).1 b hb
      have hmem : a ∈ files.filter (fun g => fileKey g = k) := by
        apply hperm.mem_iff.mp
        rw [hg]
        exact List.mem_cons_self a rest
      rw [List.maximum_eq_coe_iff]
      constructor
      · exact List.mem_map_of_mem File.modified_at hmem
      · intro b hb
        obtain ⟨x, hx, rfl⟩ := List.mem_map.mp hb
        have hxs : x ∈ (sortedFiles files).filter (fun g => fileKey g = k) :=
          hperm.mem_iff.mpr hx
        rw [hg] at hxs
        rcases List.mem_cons.mp hxs with rfl | hxr
        · exact le_refl _
        · exact hle x hxr

/-- Witness for C3: the spec's concrete scenario — two records with folder
id 7, filename syllabus.pdf and distinct timestamps collapse to the single
most recent record. -/
theorem deduplication_correct_witness :
    [File.mk 7 "syllabus.pdf" "u1" 1672531200000,
      File.mk 7 "syllabus.pdf" "u2" 1685577600000].filter
        (fun f => fileKey f = "7 syllabus.pdf") ≠ [] ∧
    ([File.mk 7 "syllabus.pdf" "u1" 1672531200000,
      File.mk 7 "syllabus.pdf" "u2" 1685577600000].filter
        (fun f => fileKey f = "7 syllabus.pdf")).Pairwise
      (fun a b => a.modified_at ≠ b.modified_at) ∧
    ∃ f, (uniqueFiles [File.mk 7 "syllabus.pdf" "u1" 1672531200000,
        File.mk 7 "syllabus.pdf" "u2" 1685577600000]).filter
        (fun g => fileKey g = "7 syllabus.pdf") = [f] ∧
      (([File.mk 7 "syllabus.pdf" "u1" 1672531200000,
        File.mk 7 "syllabus.pdf" "u2" 1685577600000].filter
          (fun g => fileKey g = "7 syllabus.pdf")).map
        File.modified_at).maximum = (f.modified_at : WithBot Int) :=
  ⟨by decide, by decide, deduplication_correct _ _ (by decide) (by decide)⟩

/-- Counterexample to C4 as stated: a filename containing ':' and a space
reaches the resolved path unchanged, because line 145 appends
file.filename without sanitizing it. -/
theorem path_sanitization_counterexample :
    ¬ pathFullySanitized (resolveDestPath ["out", "CourseX_42"]
      "Unit 1/Readings" "syl:labus 1.pdf") := by
  intro h
  have hc := h "syl:labus 1.pdf" (by decide) ':' (by decide)
  exact absurd hc.1 (by decide)

/-- Claim C4 amended: the resolved destination path consists of the course
root, the folder path segments each independently sanitized — those
segments contain no disallowed character and no whitespace — and the final
filename, which is appended unsanitized and may retain such characters. -/
theorem path_sanitization_amended (courseDir : List String)
    (canvasFoldername filename : String) :
    resolveDestPath courseDir canvasFoldername filename =
      courseDir ++ (splitSegments canvasFoldername '/').map santizeFilename
        ++ [filename] ∧
    ∀ seg ∈ (splitSegments canvasFoldername '/').map santizeFilename,
      ∀ c ∈ seg.data, isDisallowedChar c = false ∧ isSpaceChar c = false := by
  refine ⟨rfl, ?_⟩
  intro seg hseg c hc
  obtain ⟨t, _, rfl⟩ := List.mem_map.mp hseg
  rw [santizeFilename_data] at hc
  obtain ⟨d, _, rfl⟩ := List.mem_map.mp hc
  exact sanitizeChar_safe d

/-- Witness for C4 amended: the folder path Unit 1/Readings resolves to
sanitized segments, and its first segment Unit_1 is free of disallowed
characters and whitespace. -/
theorem path_sanitization_amended_witness :
    "Unit_1" ∈ (splitSegments "Unit 1/Readings" '/').map santizeFilename ∧
    ∀ c ∈ ("Unit_1" : String).data,
      isDisallowedChar c = false ∧ isSpaceChar c = false :=
  ⟨by decide, (path_sanitization_amended ["out", "CourseX_42"]
    "Unit 1/Readings" "syllabus.pdf").2 "Unit_1" (by decide)⟩

theorem runCoursesAux_map_eventKey (o₁ o₂ : Int → Category → Bool) :
    ∀ cs : List Course,
      (runCoursesAux o₁ cs).map eventKey = (runCoursesAux o₂ cs).map eventKey
  | [] => rfl
  | c :: rest => by
    unfold runCoursesAux
    rw [List.map_append, List.map_append,
      runCoursesAux_map_eventKey o₁ o₂ rest]
    congr 1
    unfold processCourse
    by_cases hn : c.name = ""
    · rw [if_pos hn, if_pos hn]
    · rw [if_neg hn, if_neg hn, List.map_map, List.map_map]
      rfl

theorem runCourses_map_eventKey (o₁ o₂ : Int → Category → Bool)
    (sel : Option String) (cs : List Course) :
    (runCourses o₁ sel cs).map eventKey =
      (runCourses o₂ sel cs).map eventKey :=
  runCoursesAux_map_eventKey o₁ o₂ (coursesToProcess sel cs)

theorem eventKey_mem_runCoursesAux (o : Int → Category → Bool) :
    ∀ (cs : List Course) (c : Course), c ∈ cs → c.name ≠ "" →
      ∀ cat : Category, cat ∈ categoryOrder →
        (c.id, cat) ∈ (runCoursesAux o cs).map eventKey
  | [], c, hc, _, _, _ => absurd hc (List.not_mem_nil c)
  | d :: rest, c, hc, hn, cat, hcat => by
    unfold runCoursesAux
    rw [List.map_append, List.mem_append]
    rcases List.mem_cons.mp hc with rfl | hmem
    · left
      unfold processCourse
      rw [if_neg hn, List.map_map]
      exact List.mem_map.mpr ⟨cat, hcat, rfl⟩
    · right
      exact eventKey_mem_runCoursesAux o rest c hmem hn cat hcat

/-- Counterexample to C5 as stated: two planned files, the first of whose
transfers fails; the Files loop never attempts the second file, because
the loop has no per-item catch and the rejection aborts the category. -/
theorem per_item_isolation_counterexample :
    (downloadFilesLoop
      (fun p fs => if p = "p1" then ProduceOutcome.failure fs 0
        else ProduceOutcome.success ((p, ⟨5, 5⟩) :: fs) 1)
      100 [⟨"p1", 5⟩, ⟨"p2", 7⟩] []).ok = false ∧
    (downloadFilesLoop
      (fun p fs => if p = "p1" then ProduceOutcome.failure fs 0
        else ProduceOutcome.success ((p, ⟨5, 5⟩) :: fs) 1)
      100 [⟨"p1", 5⟩, ⟨"p2", 7⟩] []).attempted = ["p1"] ∧
    "p2" ∉ (downloadFilesLoop
      (fun p fs => if p = "p1" then ProduceOutcome.failure fs 0
        else ProduceOutcome.success ((p, ⟨5, 5⟩) :: fs) 1)
      100 [⟨"p1", 5⟩, ⟨"p2", 7⟩] []).attempted := by
  decide

/-- Claim C5 amended: when a transfer fails after the gate decided to
fetch, the failure propagates out of the gate and aborts the remaining
items of the same category — the loop attempts no further item and the
category function rejects; the rejection is caught only at the per-course
category invocation, so the orchestrator's sequence of category
invocations (and hence every sibling category and later course) is
unaffected by category outcomes. -/
theorem per_item_failure_aborts_category
    (produce : String → FS → ProduceOutcome) (now : Int)
    (item : PlannedFile) (rest : List PlannedFile) (fs : FS)
    (hfail : (fIfNeeded (produce item.destPath) item.destPath item.mtime
      now fs).ok = false) :
    downloadFilesLoop produce now (item :: rest) fs =
      { fs := (fIfNeeded (produce item.destPath) item.destPath item.mtime
          now fs).fs,
        attempted := [item.destPath], ok := false } ∧
    ∀ (o₁ o₂ : Int → Category → Bool) (sel : Option String)
      (cs : List Course),
      (runCourses o₁ sel cs).map eventKey =
        (runCourses o₂ sel cs).map eventKey := by
  constructor
  · unfold downloadFilesLoop
    simp only [hfail, Bool.false_eq_true, if_false]
  · intro o₁ o₂ sel cs
    exact runCourses_map_eventKey o₁ o₂ sel cs

/-- Witness for C5 amended: a failing first transfer yields the aborted
one-item attempt list, and the orchestration sequence is outcome
independent at a concrete course list. -/
theorem per_item_failure_aborts_category_witness :
    downloadFilesLoop (fun _ fs => ProduceOutcome.failure fs 0) 100
        [⟨"p1", 5⟩, ⟨"p2", 7⟩] [] =
      { fs := [], attempted := ["p1"], ok := false } ∧
    (runCourses (fun _ _ => false) none [⟨1, "A", "a"⟩]).map eventKey =
      (runCourses (fun _ _ => true) none [⟨1, "A", "a"⟩]).map eventKey := by
  have h := per_item_failure_aborts_category
    (fun _ fs => ProduceOutcome.failure fs 0) 100 ⟨"p1", 5⟩ [⟨"p2", 7⟩] []
    (by decide)
  exact ⟨h.1, h.2 (fun _ _ => false) (fun _ _ => true) none [⟨1, "A", "a"⟩]⟩

/-- Claim C6: the orchestrator's sequence of category-downloader
invocations does not depend on which category downloaders fail, and for
every selected course with a truthy name every one of the five category
downloaders is invoked for it — a failing category (including a failing
enumeration inside it) never prevents the other categories of the same
course, or later courses, from running. -/
theorem category_failure_isolation (o₁ o₂ : Int → Category → Bool)
    (sel : Option String) (cs : List Course) :
    (runCourses o₁ sel cs).map eventKey =
      (runCourses o₂ sel cs).map eventKey ∧
    ∀ c ∈ coursesToProcess sel cs, c.name ≠ "" → ∀ cat : Category,
      (c.id, cat) ∈ (runCourses o₁ sel cs).map eventKey := by
  refine ⟨runCourses_map_eventKey o₁ o₂ sel cs, ?_⟩
  intro c hc hn cat
  have hcat : cat ∈ categoryOrder := by
    cases cat <;> decide
  exact eventKey_mem_runCoursesAux o₁ (coursesToProcess sel cs) c hc hn
    cat hcat

/-- Witness for C6: with the Files downloader failing for course 1, the
Pages downloader is still invoked for course 1. -/
theorem category_failure_isolation_witness :
    (⟨1, "A", "a"⟩ : Course) ∈ coursesToProcess none [⟨1, "A", "a"⟩] ∧
    (1, Category.pages) ∈ (runCourses
      (fun _ cat => !(cat == Category.files)) none
      [⟨1, "A", "a"⟩]).map eventKey := by
  have h := (category_failure_isolation
    (fun _ cat => !(cat == Category.files)) (fun _ _ => true) none
    [⟨1, "A", "a"⟩]).2
  exact ⟨by decide, h ⟨1, "A", "a"⟩ (by decide) (by decide) Category.pages⟩

theorem validateOptions_isSome (o : CLIOptions)
    (h : (truthy o.course = true ∧ o.all = true) ∨
      (truthy o.course = false ∧ o.all = false) ∨
      truthy o.dir = false ∨ truthy o.url = false ∨
      truthy o.token = false) :
    ∃ msg, validateOptions o = some msg := by
  cases hc : truthy o.course <;> cases ha : o.all <;>
    cases hd : truthy o.dir <;> cases hu : truthy o.url <;>
    cases ht : truthy o.token <;>
    simp_all [validateOptions]

/-- Claim C7: whenever --course and --all are both given, or neither is
given, or any of --dir, --url, --token is missing, the program prints
usage and exits with a non-zero code, performing zero network calls. -/
theorem cli_validation (o : CLIOptions) (networkRunCalls : Nat)
    (h : (truthy o.course = true ∧ o.all = true) ∨
      (truthy o.course = false ∧ o.all = false) ∨
      truthy o.dir = false ∨ truthy o.url = false ∨
      truthy o.token = false) :
    (mainModel o networkRunCalls).printedUsage = true ∧
    (∃ code, (mainModel o networkRunCalls).exitCode = some code ∧
      code ≠ 0) ∧
    (mainModel o networkRunCalls).networkCalls = 0 := by
  obtain ⟨msg, hmsg⟩ := validateOptions_isSome o h
  unfold mainModel
  rw [hmsg]
  exact ⟨rfl, ⟨1, rfl, one_ne_zero⟩, rfl⟩

/-- Witness for C7: giving both --course and --all (with all three
required flags present) prints usage, exits non-zero and performs no
network call. -/
theorem cli_validation_witness :
    (mainModel ⟨some "X", true, some "d", some "u", some "t"⟩ 7).printedUsage
      = true ∧
    (∃ code, (mainModel ⟨some "X", true, some "d", some "u", some "t"⟩
      7).exitCode = some code ∧ code ≠ 0) ∧
    (mainModel ⟨some "X", true, some "d", some "u", some "t"⟩
      7).networkCalls = 0 :=
  cli_validation ⟨some "X", true, some "d", some "u", some "t"⟩ 7
    (Or.inl ⟨by decide, rfl⟩)

/-- Counterexample to C8 as stated: two announcements with distinct
identifiers whose title-underscore-identifier concatenations coincide
produce identical destination filenames. -/
theorem announcement_dest_unique_counterexample :
    (Announcement.mk "2" "A_1" 0 "").id ≠ (Announcement.mk "1_2" "A" 0 "").id ∧
    announcementDestName (Announcement.mk "2" "A_1" 0 "") =
      announcementDestName (Announcement.mk "1_2" "A" 0 "") := by
  decide

/-- Claim C8 amended: two distinct announcements with identical titles get
distinct destination filenames provided their identifiers remain distinct
after sanitization (as numeric Canvas identifiers always do); identifiers
that collide after the underscore join or after sanitization can collide. -/
theorem announcement_dest_unique_amended (a₁ a₂ : Announcement)
    (htitle : a₁.title = a₂.title)
    (hid : santizeFilename a₁.id ≠ santizeFilename a₂.id) :
    announcementDestName a₁ ≠ announcementDestName a₂ := by
  intro h
  apply hid
  unfold announcementDestName at h
  rw [santizeFilename_append, santizeFilename_append,
    santizeFilename_append, santizeFilename_append, htitle] at h
  have hdata := congrArg String.data h
  simp only [String.data_append] at hdata
  apply String.ext
  have h1 := List.append_cancel_right hdata
  exact List.append_cancel_left h1

/-- Witness for C8 amended: identically titled announcements with the
numeric identifiers 1 and 2 get distinct filenames. -/
theorem announcement_dest_unique_witness :
    (Announcement.mk "1" "T" 0 "").title = (Announcement.mk "2" "T" 0 "").title ∧
    santizeFilename (Announcement.mk "1" "T" 0 "").id ≠
      santizeFilename (Announcement.mk "2" "T" 0 "").id ∧
    announcementDestName (Announcement.mk "1" "T" 0 "") ≠
      announcementDestName (Announcement.mk "2" "T" 0 "") :=
  ⟨rfl, by decide,
    announcement_dest_unique_amended _ _ rfl (by decide)⟩

/-- Claim C10: with a --course selector, a listed course reaches the
download stage exactly when its name or its course code is
character-for-character equal to the selector and its name is truthy;
courses lacking a name are skipped even when their course code matches. -/
theorem course_selection_exact (sel : String) (cs : List Course) (c : Course)
    (hc : c ∈ cs) :
    c ∈ processedCourses (some sel) cs ↔
      ((c.name = sel ∨ c.course_code = sel) ∧ c.name ≠ "") := by
  unfold processedCourses coursesToProcess
  simp only [List.mem_filter, decide_eq_true_eq]
  constructor
  · rintro ⟨⟨_, hsel⟩, hname⟩
    exact ⟨hsel, hname⟩
  · rintro ⟨hsel, hname⟩
    exact ⟨⟨hc, hsel⟩, hname⟩

/-- Witness for C10: a course matched by its course code is processed,
and a nameless course with a matching course code is skipped. -/
theorem course_selection_exact_witness :
    ((⟨2, "Math", "CS101"⟩ : Course) ∈ processedCourses (some "CS101")
      [⟨1, "CS101", "X"⟩, ⟨2, "Math", "CS101"⟩, ⟨3, "", "CS101"⟩]) ∧
    ¬((⟨3, "", "CS101"⟩ : Course) ∈ processedCourses (some "CS101")
      [⟨1, "CS101", "X"⟩, ⟨2, "Math", "CS101"⟩, ⟨3, "", "CS101"⟩]) :=
  ⟨(course_selection_exact "CS101"
      [⟨1, "CS101", "X"⟩, ⟨2, "Math", "CS101"⟩, ⟨3, "", "CS101"⟩]
      ⟨2, "Math", "CS101"⟩ (by decide)).mpr (by decide),
    fun hmem => ((course_selection_exact "CS101"
      [⟨1, "CS101", "X"⟩, ⟨2, "Math", "CS101"⟩, ⟨3, "", "CS101"⟩]
      ⟨3, "", "CS101"⟩ (by decide)).mp hmem).2 rfl⟩

end Canvas
